import Mathlib

/-
  A shallow embedding of `src/pdsmoover.js` from NorthskySocial/migrator-lite.

  The migrator drives two personal data servers (PDSes) through authenticated
  agents.  We model every remote operation issued by the code as a constructor
  of `RemoteCall`, and each workflow (`migrate`, `signPlcOperation`,
  `deactivateOldAccount`) as a pure function from an explicit environment (the
  responses the remote services would give) to a result carrying

    - the error outcome (`none` = the JS method returned normally,
      `some e` = the method threw the corresponding error),
    - the ordered trace of remote calls issued before returning or throwing,
    - the final state of the `Migrator` instance (`this`).

  The two cursor loops of `migrate` are modelled with an explicit fuel
  parameter; running out of fuel yields `none` (divergence), and theorems
  hypothesise enough fuel for the page chain at hand.
-/

/-- One remote operation issued by the migrator, in program order.  Each
constructor names the underlying client call in `pdsmoover.js`. -/
inductive RemoteCall where
  | resolveHandlePublic (handle : String)
  | resolveHandleResolver (handle : String)
  | resolveDidDoc (did : String)
  | fetchPlcLog
  | oldLogin
  | describeServer
  | getServiceAuth
  | createAccount
  | newLogin
  | getRepo
  | importRepo
  | checkAccountStatus
  | listBlobs (cursor : Option String)
  | getBlob (cid : String)
  | uploadBlob (cid : String)
  | listMissingBlobs (cursor : Option String)
  | getPreferences
  | putPreferences
  | requestPlcOperationSignature
  | getRecommendedDidCredentials
  | signPlcOperationCall
  | submitPlcOperation
  | activateAccount
  | deactivateAccount
deriving DecidableEq, Repr

/-- The fields of the `Migrator` class set up in its constructor
(`pdsmoover.js` lines 34-46).  The two agents are `null` until `migrate`
stores them after the preferences phase; we model an agent slot as
`Option Unit` (presence of a stored session). -/
structure MigratorState where
  oldAgent : Option Unit
  newAgent : Option Unit
  missingBlobs : List String
  createNewAccount : Bool
  migrateRepo : Bool
  migrateBlobs : Bool
  migrateMissingBlobs : Bool
  migratePrefs : Bool
  migratePlcRecord : Bool
deriving DecidableEq, Repr

/-- Model of `new Migrator()`: both agents `null`, empty missing-blob list, every
phase flag `true`. -/
def mkMigrator : MigratorState :=
  { oldAgent := none
    newAgent := none
    missingBlobs := []
    createNewAccount := true
    migrateRepo := true
    migrateBlobs := true
    migrateMissingBlobs := true
    migratePrefs := true
    migratePlcRecord := true }

/-- JS `toLowerCase()`, written as a structural recursion over the character
list so that the kernel can evaluate it. -/
def strToLower (s : String) : String := String.mk (s.data.map Char.toLower)

/-- JS `trim()`: strip leading and trailing whitespace (structural version). -/
def strTrim (s : String) : String :=
  String.mk (((s.data.dropWhile Char.isWhitespace).reverse.dropWhile Char.isWhitespace).reverse)

/-- JS `String.prototype.endsWith` (structural version). -/
def strEndsWith (s pat : String) : Bool := pat.data.isSuffixOf s.data

/-- The bidirectional-text control characters stripped from a pasted handle
(`replace(/[‪‬‎‏⁦-⁩]/g, '')`). -/
def bidiChars : List Char :=
  ['\u202A', '\u202C', '\u200E', '\u200F', '\u2066', '\u2067', '\u2068', '\u2069']

/-- JS `String.prototype.replace('@', '')` with a string pattern replaces only
the first occurrence. -/
def removeFirstAt : List Char → List Char
  | [] => []
  | c :: cs => if c = '@' then cs else c :: removeFirstAt cs

/-- Model of `oldHandle.replace('@', '').trim().replace(/[bidi]/g, '')`
(lines 64 and 278). -/
def normalizeHandle (s : String) : String :=
  let s1 := String.mk (removeFirstAt s.data)
  let s2 := strTrim s1
  String.mk (s2.data.filter (fun c => !bidiChars.contains c))

/-- One entry of a DID document's `service` array: its `type` and
`serviceEndpoint` fields. -/
structure ServiceEntry where
  serviceType : String
  serviceEndpoint : String
deriving DecidableEq, Repr

/-- Model of `didDoc.service.filter(s => s.type === 'AtprotoPersonalDataServer')[0].serviceEndpoint`;
`none` models the thrown `TypeError` when the filter result is empty
(caught and rethrown as 'Could not find a PDS in the DID document.'). -/
def pdsFromDoc (services : List ServiceEntry) : Option String :=
  ((services.filter (fun s => s.serviceType = "AtprotoPersonalDataServer")).head?).map
    (fun s => s.serviceEndpoint)

/-- One page of a paginated listing (`listBlobs` / `listMissingBlobs`):
the listed cids and the next cursor.  A `none` cursor models an absent
field of the JSON response. -/
structure Page where
  items : List String
  cursor : Option String
deriving DecidableEq, Repr

/-- JS truthiness of the cursor in `while (blobCursor)`: `undefined` and the
empty string are falsy, every other string is truthy. -/
def cursorTruthy : Option String → Bool
  | none => false
  | some s => !(s == "")

/-- JS truthiness of an array value: an array object is always truthy, even
`[]`.  This makes the guard `if (!rotationKeys)` at line 253 unreachable. -/
def jsArrayTruthy (_ : List String) : Bool := true

/-- The inner `for (const cid of listedBlobs.data.cids)` loop of the main blob
sync (lines 168-184): for each cid, `getBlob` then `uploadBlob`; a failure
(modelled at the fetch step, `f cid = false`) is caught and the loop moves on.
Returns the number of successful uploads on this page and the trace. -/
def syncItems (f : String → Bool) : List String → Nat × List RemoteCall
  | [] => (0, [])
  | cid :: rest =>
    let r := syncItems f rest
    if f cid then (r.1 + 1, RemoteCall.getBlob cid :: RemoteCall.uploadBlob cid :: r.2)
    else (r.1, RemoteCall.getBlob cid :: r.2)

/-- The `do { ... } while (blobCursor)` loop of the main blob sync
(lines 159-186).  `envList` maps the cursor sent to the resulting page;
`fuel` bounds the number of iterations (`none` = fuel exhausted). -/
def blobPhase (envList : Option String → Page) (f : String → Bool) :
    Nat → Option String → Option (Nat × List RemoteCall)
  | 0, _ => none
  | fuel + 1, c =>
    let page := envList c
    let r := syncItems f page.items
    if cursorTruthy page.cursor then
      match blobPhase envList f fuel page.cursor with
      | none => none
      | some (n, tr) => some (r.1 + n, (RemoteCall.listBlobs c :: r.2) ++ tr)
    else some (r.1, RemoteCall.listBlobs c :: r.2)

/-- The inner `for (const recordBlob of missingBlobs.data.blobs)` loop of the
reconciliation pass (lines 205-224): retry `getBlob` + `uploadBlob`; a failure
pushes the cid onto `this.missingBlobs` (the accumulator `acc`). -/
def missingItems (f : String → Bool) : List String → List String → List String × List RemoteCall
  | [], acc => (acc, [])
  | cid :: rest, acc =>
    if f cid then
      let r := missingItems f rest acc
      (r.1, RemoteCall.getBlob cid :: RemoteCall.uploadBlob cid :: r.2)
    else
      let r := missingItems f rest (acc ++ [cid])
      (r.1, RemoteCall.getBlob cid :: r.2)

/-- The `do { ... } while (missingBlobCursor)` loop of the reconciliation pass
(lines 197-226), threading `this.missingBlobs` through as `acc`. -/
def missingPhase (envList : Option String → Page) (f : String → Bool) :
    Nat → Option String → List String → Option (List String × List RemoteCall)
  | 0, _, _ => none
  | fuel + 1, c, acc =>
    let page := envList c
    let r := missingItems f page.items acc
    if cursorTruthy page.cursor then
      match missingPhase envList f fuel page.cursor r.1 with
      | none => none
      | some (mb, tr) => some (mb, (RemoteCall.listMissingBlobs c :: r.2) ++ tr)
    else some (r.1, RemoteCall.listMissingBlobs c :: r.2)

/-- The `checkAccountStatus` response fields used by the code. -/
structure AccountStatus where
  activated : Bool
  expectedBlobs : Nat
  importedBlobs : Nat
deriving DecidableEq, Repr

/-- Errors thrown by `migrate`. -/
inductive MigErr where
  | noPdsInDidDoc
  | didMismatch
deriving DecidableEq, Repr

/-- The responses the two services give during one `migrate` run. -/
structure MigrateEnv where
  resolvedDid : String
  didDocServices : List ServiceEntry
  createdDid : String
  status1 : AccountStatus
  status2 : AccountStatus
  listBlobsPage : Option String → Page
  blobFetchOk : String → Bool
  listMissingPage : Option String → Page
  missingFetchOk : String → Bool

/-- Outcome of one `migrate` run. -/
structure MigResult where
  err? : Option MigErr
  trace : List RemoteCall
  final : MigratorState
deriving DecidableEq, Repr

/-- Model of `migrate` from the `newAgent.login` at line 139 onwards. -/
def migrateFrom2 (st : MigratorState) (env : MigrateEnv) (t0 : List RemoteCall)
    (fuel : Nat) : Option MigResult :=
  let t1 := t0 ++ [RemoteCall.newLogin]
  let t2 := if st.migrateRepo then t1 ++ [RemoteCall.getRepo, RemoteCall.importRepo] else t1
  let t3 := t2 ++ [RemoteCall.checkAccountStatus]
  let blobRes : Option (List RemoteCall) :=
    if st.migrateBlobs then
      match blobPhase env.listBlobsPage env.blobFetchOk fuel none with
      | none => none
      | some r => some r.2
    else some []
  match blobRes with
  | none => none
  | some tb =>
    let t4 := t3 ++ tb
    let missRes : Option (List String × List RemoteCall) :=
      if st.migrateMissingBlobs then
        if env.status2.expectedBlobs ≠ env.status2.importedBlobs then
          match missingPhase env.listMissingPage env.missingFetchOk fuel none st.missingBlobs with
          | none => none
          | some r => some (r.1, RemoteCall.checkAccountStatus :: r.2)
        else some (st.missingBlobs, [RemoteCall.checkAccountStatus])
      else some (st.missingBlobs, [])
    match missRes with
    | none => none
    | some mr =>
      let t5 := t4 ++ mr.2
      let t6 := if st.migratePrefs then t5 ++ [RemoteCall.getPreferences, RemoteCall.putPreferences] else t5
      let final := { st with oldAgent := some (), newAgent := some (), missingBlobs := mr.1 }
      let t7 := if st.migratePlcRecord then t6 ++ [RemoteCall.requestPlcOperationSignature] else t6
      some { err? := none, trace := t7, final := final }

/-- Model of `migrate` from the old-PDS login at line 97 onwards (after source
resolution; `t0` is the trace of the resolution calls). -/
def migrateFrom (st : MigratorState) (env : MigrateEnv) (t0 : List RemoteCall)
    (fuel : Nat) : Option MigResult :=
  let t1 := t0 ++ [RemoteCall.oldLogin, RemoteCall.describeServer]
  if st.createNewAccount then
    let t2 := t1 ++ [RemoteCall.getServiceAuth, RemoteCall.createAccount]
    if env.createdDid ≠ env.resolvedDid then
      some { err? := some MigErr.didMismatch, trace := t2, final := st }
    else migrateFrom2 st env t2 fuel
  else migrateFrom2 st env t1 fuel

/-- Model of `Migrator.migrate` (lines 61-242). -/
def migrate (st : MigratorState) (env : MigrateEnv) (oldHandle : String)
    (fuel : Nat) : Option MigResult :=
  let h := normalizeHandle oldHandle
  if strEndsWith h ".bsky.social" then
    migrateFrom st env [RemoteCall.resolveHandlePublic h] fuel
  else
    let t0 := [RemoteCall.resolveHandleResolver h, RemoteCall.resolveDidDoc env.resolvedDid]
    match pdsFromDoc env.didDocServices with
    | none => some { err? := some MigErr.noPdsInDidDoc, trace := t0, final := st }
    | some _ => migrateFrom st env t0 fuel

/-- The resolution calls issued before the old-PDS login, as a function of the
handle (entryway shortcut for `.bsky.social`, resolver + DID document lookup
otherwise). -/
def resolveTrace (env : MigrateEnv) (oldHandle : String) : List RemoteCall :=
  let h := normalizeHandle oldHandle
  if strEndsWith h ".bsky.social" then [RemoteCall.resolveHandlePublic h]
  else [RemoteCall.resolveHandleResolver h, RemoteCall.resolveDidDoc env.resolvedDid]

/-- Errors of `signPlcOperation`: a JS `TypeError` from dereferencing a `null`
agent field, or the (unreachable, see `jsArrayTruthy`) explicit throw
'No rotation key provided from the new PDS'. -/
inductive SignErr where
  | nullAgent
  | noRotationKey
deriving DecidableEq, Repr

/-- The destination's response to `getRecommendedDidCredentials`:
`none` models a response without a `rotationKeys` field. -/
structure SignEnv where
  rotationKeys? : Option (List String)
deriving DecidableEq, Repr

/-- Outcome of one `signPlcOperation` run. -/
structure SignResult where
  err? : Option SignErr
  trace : List RemoteCall
  final : MigratorState
deriving DecidableEq, Repr

/-- Model of `Migrator.signPlcOperation` (lines 249-273).  The method reads
`this.newAgent` first (line 250) and `this.oldAgent` at line 262; it never
writes any field of `this`. -/
def signPlcOperation (st : MigratorState) (env : SignEnv) : SignResult :=
  match st.newAgent with
  | none => { err? := some SignErr.nullAgent, trace := [], final := st }
  | some _ =>
    let t1 := [RemoteCall.getRecommendedDidCredentials]
    let rotationKeys := env.rotationKeys?.getD []
    if !(jsArrayTruthy rotationKeys) then
      { err? := some SignErr.noRotationKey, trace := t1, final := st }
    else
      match st.oldAgent with
      | none => { err? := some SignErr.nullAgent, trace := t1, final := st }
      | some _ =>
        { err? := none
          trace := t1 ++ [RemoteCall.signPlcOperationCall, RemoteCall.submitPlcOperation,
                          RemoteCall.activateAccount, RemoteCall.deactivateAccount]
          final := st }

/-- One entry of the PLC directory change log; `endpoint?` is
`log.services.atproto_pds.endpoint`, `none` modelling an entry where that
access throws (caught and skipped, lines 304-314). -/
structure PlcLogEntry where
  endpoint? : Option String
deriving DecidableEq, Repr

/-- The scan over the change log (lines 302-315): track the last endpoint seen
before the entry matching the current endpoint (case-insensitively); stop at
the first match.  `acc` starts as the empty string. -/
def scanPrior (currentPds : String) : List PlcLogEntry → String → String
  | [], acc => acc
  | e :: rest, acc =>
    match e.endpoint? with
    | none => scanPrior currentPds rest acc
    | some pds =>
      if strToLower pds = strToLower currentPds then acc
      else scanPrior currentPds rest pds

/-- Errors thrown by `deactivateOldAccount`. -/
inductive DeacErr where
  | noPdsInDidDoc
  | noPriorPds
  | priorIsCurrent
deriving DecidableEq, Repr

/-- Model of `deactivateOldAccount` after the change-log scan (lines 316-338): fail if
no prior endpoint was found; otherwise log in to it, fail (distinctly) if it
equals the current endpoint, else read the account status and deactivate. -/
def deactivateAfterScan (pdsBeforeCurrent currentPds : String) :
    Option DeacErr × List RemoteCall :=
  if pdsBeforeCurrent = "" then (some DeacErr.noPriorPds, [])
  else
    if pdsBeforeCurrent = currentPds then (some DeacErr.priorIsCurrent, [RemoteCall.oldLogin])
    else (none, [RemoteCall.oldLogin, RemoteCall.checkAccountStatus, RemoteCall.deactivateAccount])

/-- The responses the services give during one `deactivateOldAccount` run. -/
structure DeacEnv where
  resolvedDid : String
  didDocServices : List ServiceEntry
  plcLog : List PlcLogEntry

/-- Outcome of one `deactivateOldAccount` run. -/
structure DeacResult where
  err? : Option DeacErr
  trace : List RemoteCall
  final : MigratorState
deriving DecidableEq, Repr

/-- Model of `Migrator.deactivateOldAccount` (lines 276-340).  It reads no field of
`this` and writes none. -/
def deactivateOldAccount (st : MigratorState) (env : DeacEnv) (oldHandle : String) :
    DeacResult :=
  let h := normalizeHandle oldHandle
  let t0 := if strEndsWith h ".bsky.social" then [RemoteCall.resolveHandlePublic h]
            else [RemoteCall.resolveHandleResolver h]
  let t1 := t0 ++ [RemoteCall.resolveDidDoc env.resolvedDid]
  match pdsFromDoc env.didDocServices with
  | none => { err? := some DeacErr.noPdsInDidDoc, trace := t1, final := st }
  | some currentPds =>
    let t2 := t1 ++ [RemoteCall.fetchPlcLog]
    let prior := scanPrior currentPds env.plcLog ""
    let r := deactivateAfterScan prior currentPds
    { err? := r.1, trace := t2 ++ r.2, final := st }

/-- A chain of pages: `Chain envList c pages` says that starting the cursor
loop at cursor `c`, the environment serves exactly the pages in `pages`, each
page's cursor leading to the next one, and the last page's cursor being falsy
(absent or empty), which terminates the loop. -/
inductive Chain (envList : Option String → Page) : Option String → List Page → Prop where
  | last (c : Option String) (p : Page) :
      envList c = p → cursorTruthy p.cursor = false → Chain envList c [p]
  | step (c : Option String) (p : Page) (rest : List Page) :
      envList c = p → cursorTruthy p.cursor = true →
      Chain envList p.cursor rest → Chain envList c (p :: rest)

/-- All items listed across a chain of pages, in order. -/
def pagesItems (pages : List Page) : List String := (pages.map Page.items).flatten

/-- The cursors at which the listing is called along a chain of pages,
in order: the starting cursor, then each page's continuation cursor. -/
def chainCursors (c : Option String) : List Page → List (Option String)
  | [] => []
  | p :: rest => c :: chainCursors p.cursor rest

/-- Extract from a `listBlobs` call its cursor argument. -/
def cursorOfCall : RemoteCall → Option (Option String)
  | RemoteCall.listBlobs c => some c
  | _ => none

/-- The cursor arguments of the `listBlobs` calls in a trace, in order. -/
def listBlobCursors (t : List RemoteCall) : List (Option String) :=
  t.filterMap cursorOfCall

/-- Whether a remote call is an `uploadBlob`. -/
def isUpload : RemoteCall → Bool
  | RemoteCall.uploadBlob _ => true
  | _ => false

/-- Number of `uploadBlob` calls in a trace. -/
def numUploads (t : List RemoteCall) : Nat := t.countP isUpload

/-- Whether a remote call is a `listMissingBlobs`. -/
def isListMissingCall : RemoteCall → Bool
  | RemoteCall.listMissingBlobs _ => true
  | _ => false

/-- Number of `listMissingBlobs` calls in a trace. -/
def numListMissingCalls (t : List RemoteCall) : Nat := t.countP isListMissingCall

/-! ### Concrete inputs used in the closed instances below -/

/-- Transfer oracle where every attachment succeeds. -/
def allOk : String → Bool := fun _ => true

/-- Transfer oracle where every attachment fails. -/
def failAll : String → Bool := fun _ => false

/-- An empty final page. -/
def emptyPage : Page := { items := [], cursor := none }

/-- A listing with a single empty page. -/
def noPages : Option String → Page := fun _ => emptyPage

/-- A benign environment: matching DIDs, a PDS in the DID document, equal
blob counts, empty listings. -/
def envBasic : MigrateEnv :=
  { resolvedDid := "did:plc:me"
    didDocServices := [{ serviceType := "AtprotoPersonalDataServer",
                         serviceEndpoint := "https://old.pds" }]
    createdDid := "did:plc:me"
    status1 := { activated := false, expectedBlobs := 0, importedBlobs := 0 }
    status2 := { activated := false, expectedBlobs := 0, importedBlobs := 0 }
    listBlobsPage := noPages
    blobFetchOk := allOk
    listMissingPage := noPages
    missingFetchOk := allOk }

/-- Like `envBasic` but `createAccount` answers with a different DID. -/
def envMismatch : MigrateEnv := { envBasic with createdDid := "did:plc:other" }

/-- A rerun state: every phase flag `false` except `migratePlcRecord`. -/
def stHandoverOnly : MigratorState :=
  { mkMigrator with createNewAccount := false, migrateRepo := false, migrateBlobs := false,
                    migrateMissingBlobs := false, migratePrefs := false }

/-- A state in which `migrate` has already stored both sessions. -/
def stAgents : MigratorState := { mkMigrator with oldAgent := some (), newAgent := some () }

/-- A destination that does answer `getRecommendedDidCredentials` with a
rotation key. -/
def signEnvOk : SignEnv := { rotationKeys? := some ["k"] }

/-- A three-page listing chained by cursors `none`, `"c1"`, `"c2"`. -/
def c5env (c : Option String) : Page :=
  if c = some "c1" then { items := ["b1", "b2"], cursor := some "c2" }
  else if c = some "c2" then { items := ["d1"], cursor := none }
  else { items := ["a1", "a2"], cursor := some "c1" }

/-- The pages served by `c5env` along the cursor chain. -/
def c5pages : List Page :=
  [{ items := ["a1", "a2"], cursor := some "c1" },
   { items := ["b1", "b2"], cursor := some "c2" },
   { items := ["d1"], cursor := none }]

/-- A one-page listing with a single attachment. -/
def c4env : Option String → Page := fun _ => { items := ["x37"], cursor := none }

/-- A one-page missing-blob listing naming the same cid in two entries
(as `listMissingBlobs` does when two records reference one blob). -/
def c4dupEnv : Option String → Page := fun _ => { items := ["x", "x"], cursor := none }

/-- The outcome of a handover-only rerun of `migrate` against `envBasic`. -/
def c2res : MigResult :=
  { err? := none
    trace := [RemoteCall.resolveHandlePublic "alice.bsky.social", RemoteCall.oldLogin,
              RemoteCall.describeServer, RemoteCall.newLogin, RemoteCall.checkAccountStatus,
              RemoteCall.requestPlcOperationSignature]
    final := { stHandoverOnly with oldAgent := some (), newAgent := some () } }

/-- The outcome of a first `migrate` run against `envMismatch`: the DID
check fails right after `createAccount`. -/
def c3res : MigResult :=
  { err? := some MigErr.didMismatch
    trace := [RemoteCall.resolveHandlePublic "alice.bsky.social", RemoteCall.oldLogin,
              RemoteCall.describeServer, RemoteCall.getServiceAuth, RemoteCall.createAccount]
    final := mkMigrator }

/-- The outcome of a full first `migrate` run against `envBasic`. -/
def c9res : MigResult :=
  { err? := none
    trace := [RemoteCall.resolveHandlePublic "alice.bsky.social", RemoteCall.oldLogin,
              RemoteCall.describeServer, RemoteCall.getServiceAuth, RemoteCall.createAccount,
              RemoteCall.newLogin, RemoteCall.getRepo, RemoteCall.importRepo,
              RemoteCall.checkAccountStatus, RemoteCall.listBlobs none,
              RemoteCall.checkAccountStatus, RemoteCall.getPreferences,
              RemoteCall.putPreferences, RemoteCall.requestPlcOperationSignature]
    final := { mkMigrator with oldAgent := some (), newAgent := some () } }

/-- A deactivation environment whose change log opens with the current
endpoint. -/
def c7env : DeacEnv :=
  { resolvedDid := "did:plc:me"
    didDocServices := [{ serviceType := "AtprotoPersonalDataServer", serviceEndpoint := "p" }]
    plcLog := [{ endpoint? := some "p" }] }

/-! ### Helper lemmas about the blob-sync loops -/

theorem syncItems_getBlob_mem (f : String → Bool) (items : List String) (cid : String)
    (h : cid ∈ items) : RemoteCall.getBlob cid ∈ (syncItems f items).2 := by
  induction items with
  | nil => cases h
  | cons a rest ih =>
    rcases List.mem_cons.mp h with rfl | h2
    · by_cases hf : f cid = true <;> simp [syncItems, hf]
    · by_cases hf : f a = true <;> simp [syncItems, hf, ih h2]

theorem syncItems_cursors (f : String → Bool) (items : List String) :
    listBlobCursors (syncItems f items).2 = [] := by
  induction items with
  | nil => simp [syncItems, listBlobCursors]
  | cons a rest ih =>
    by_cases hf : f a = true <;>
      simp [syncItems, hf, listBlobCursors, List.filterMap_cons, cursorOfCall] <;>
      simpa [listBlobCursors] using ih

theorem syncItems_numUploads (f : String → Bool) (items : List String) :
    numUploads (syncItems f items).2 = (items.filter f).length := by
  induction items with
  | nil => simp [syncItems, numUploads]
  | cons a rest ih =>
    by_cases hf : f a = true <;>
      simp [syncItems, hf, numUploads, List.countP_cons, isUpload] <;>
      simpa [numUploads] using ih

theorem syncItems_numListMissing (f : String → Bool) (items : List String) :
    numListMissingCalls (syncItems f items).2 = 0 := by
  induction items with
  | nil => simp [syncItems, numListMissingCalls]
  | cons a rest ih =>
    by_cases hf : f a = true <;>
      simp [syncItems, hf, numListMissingCalls, List.countP_cons, isListMissingCall] <;>
      simpa [numListMissingCalls] using ih

theorem blobPhase_chain {envL : Option String → Page} (f : String → Bool)
    {c : Option String} {pages : List Page} (hch : Chain envL c pages) :
    ∀ fuel, pages.length ≤ fuel →
    ∃ n tr, blobPhase envL f fuel c = some (n, tr) ∧
      listBlobCursors tr = chainCursors c pages ∧
      numUploads tr = ((pagesItems pages).filter f).length ∧
      ∀ cid, cid ∈ pagesItems pages → RemoteCall.getBlob cid ∈ tr := by
  induction hch with
  | last c p hp hcur =>
    intro fuel hf
    cases fuel with
    | zero => simp at hf
    | succ k =>
      refine ⟨(syncItems f p.items).1, RemoteCall.listBlobs c :: (syncItems f p.items).2,
        ?_, ?_, ?_, ?_⟩
      · simp [blobPhase, hp, hcur]
      · simp [listBlobCursors, List.filterMap_cons, cursorOfCall, chainCursors]
        simpa [listBlobCursors] using syncItems_cursors f p.items
      · simp [numUploads, List.countP_cons, isUpload, pagesItems]
        simpa [numUploads, pagesItems] using syncItems_numUploads f p.items
      · intro cid hcid
        simp [pagesItems] at hcid
        simp [syncItems_getBlob_mem f p.items cid hcid]
  | step c p rest hp hcur hrest ih =>
    intro fuel hf
    cases fuel with
    | zero => simp at hf
    | succ k =>
      have hlen : rest.length ≤ k := by
        simpa [Nat.succ_le_succ_iff] using hf
      obtain ⟨n2, tr2, hrec, hcur2, hup2, hmem2⟩ := ih k hlen
      refine ⟨(syncItems f p.items).1 + n2,
        (RemoteCall.listBlobs c :: (syncItems f p.items).2) ++ tr2, ?_, ?_, ?_, ?_⟩
      · simp [blobPhase, hp, hcur, hrec]
      · simp only [listBlobCursors, List.filterMap_append, List.filterMap_cons, cursorOfCall,
          chainCursors]
        have h1 := syncItems_cursors f p.items
        have h2 := hcur2
        simp only [listBlobCursors] at h1 h2
        simp [h1, h2]
      · simp [numUploads, List.countP_append, List.countP_cons, isUpload, pagesItems,
          List.filter_append]
        have h1 := syncItems_numUploads f p.items
        have h2 := hup2
        simp [numUploads, pagesItems] at h1 h2
        omega
      · intro cid hcid
        simp [pagesItems] at hcid
        rcases hcid with hcid | hcid
        · simp [syncItems_getBlob_mem f p.items cid hcid]
        · have := hmem2 cid (by simpa [pagesItems] using hcid)
          simp [this]

theorem blobPhase_numListMissing :
    ∀ (fuel : Nat) (envL : Option String → Page) (f : String → Bool)
      (c : Option String) (n : Nat) (tr : List RemoteCall),
      blobPhase envL f fuel c = some (n, tr) → numListMissingCalls tr = 0 := by
  intro fuel
  induction fuel with
  | zero => intro envL f c n tr h; simp [blobPhase] at h
  | succ k ih =>
    intro envL f c n tr h
    simp only [blobPhase] at h
    split at h
    · cases hrec : blobPhase envL f k (envL c).cursor with
      | none => rw [hrec] at h; simp at h
      | some p =>
        rw [hrec] at h
        cases p with
        | mk n2 tr2 =>
          simp only [Option.some.injEq, Prod.mk.injEq] at h
          obtain ⟨-, htr⟩ := h
          subst htr
          have h1 := syncItems_numListMissing f (envL c).items
          have h2 := ih envL f (envL c).cursor n2 tr2 hrec
          simp only [numListMissingCalls] at h1 h2 ⊢
          simp [List.countP_append, List.countP_cons, isListMissingCall, h1, h2]
    · simp only [Option.some.injEq, Prod.mk.injEq] at h
      obtain ⟨-, htr⟩ := h
      subst htr
      have h1 := syncItems_numListMissing f (envL c).items
      simp only [numListMissingCalls] at h1 ⊢
      simp [List.countP_cons, isListMissingCall, h1]

theorem missingItems_fst (f : String → Bool) (items : List String) :
    ∀ acc, (missingItems f items acc).1 = acc ++ items.filter (fun c => !(f c)) := by
  induction items with
  | nil => intro acc; simp [missingItems]
  | cons a rest ih =>
    intro acc
    by_cases hf : f a = true
    · simp [missingItems, hf, ih]
    · simp only [Bool.not_eq_true] at hf
      simp [missingItems, hf, ih]

theorem missingPhase_chain {envL : Option String → Page} (f : String → Bool)
    {c : Option String} {pages : List Page} (hch : Chain envL c pages) :
    ∀ fuel acc, pages.length ≤ fuel →
    ∃ tr, missingPhase envL f fuel c acc =
      some (acc ++ (pagesItems pages).filter (fun cid => !(f cid)), tr) := by
  induction hch with
  | last c p hp hcur =>
    intro fuel acc hf
    cases fuel with
    | zero => simp at hf
    | succ k =>
      refine ⟨RemoteCall.listMissingBlobs c :: (missingItems f p.items acc).2, ?_⟩
      simp [missingPhase, hp, hcur, missingItems_fst, pagesItems]
  | step c p rest hp hcur hrest ih =>
    intro fuel acc hf
    cases fuel with
    | zero => simp at hf
    | succ k =>
      have hlen : rest.length ≤ k := by simpa [Nat.succ_le_succ_iff] using hf
      obtain ⟨tr2, hrec⟩ := ih k ((missingItems f p.items acc).1) hlen
      rw [missingItems_fst] at hrec
      refine ⟨(RemoteCall.listMissingBlobs c :: (missingItems f p.items acc).2) ++ tr2, ?_⟩
      simp [missingPhase, hp, hcur, missingItems_fst, hrec, pagesItems, List.filter_append,
        List.append_assoc]

theorem missingPhase_extends :
    ∀ (fuel : Nat) (envL : Option String → Page) (f : String → Bool)
      (c : Option String) (acc mb : List String) (tr : List RemoteCall),
      missingPhase envL f fuel c acc = some (mb, tr) → ∃ l, mb = acc ++ l := by
  intro fuel
  induction fuel with
  | zero => intro envL f c acc mb tr h; simp [missingPhase] at h
  | succ k ih =>
    intro envL f c acc mb tr h
    simp only [missingPhase] at h
    split at h
    · cases hrec : missingPhase envL f k (envL c).cursor (missingItems f (envL c).items acc).1 with
      | none => rw [hrec] at h; simp at h
      | some p =>
        rw [hrec] at h
        cases p with
        | mk mb2 tr2 =>
          simp only [Option.some.injEq, Prod.mk.injEq] at h
          obtain ⟨hmb, -⟩ := h
          obtain ⟨l2, hl2⟩ := ih envL f (envL c).cursor _ mb2 tr2 hrec
          exact ⟨(envL c).items.filter (fun cid => !(f cid)) ++ l2, by
            rw [← hmb, hl2, missingItems_fst, List.append_assoc]⟩
    · simp only [Option.some.injEq, Prod.mk.injEq] at h
      obtain ⟨hmb, -⟩ := h
      exact ⟨(envL c).items.filter (fun cid => !(f cid)), by rw [← hmb, missingItems_fst]⟩

/-! ### Claim theorems -/

/-- Claim C1 (code bug): the code does NOT fail when the destination's
recommended DID credentials carry no rotation keys.  At line 252 the code
computes `rotationKeys = data.rotationKeys ?? []`, which is always an array,
and a JS array is always truthy, so the guard `if (!rotationKeys)` at line 253
never fires.  Concretely, with a response lacking the `rotationKeys` field the
operation returns normally and still issues `signPlcOperation` and
`submitPlcOperation`; in general no execution of `signPlcOperation` can ever
produce the 'No rotation key provided from the new PDS' error. -/
theorem signPlc_rotation_keys_unchecked :
    ((signPlcOperation stAgents { rotationKeys? := none }).err? = none ∧
      RemoteCall.signPlcOperationCall ∈ (signPlcOperation stAgents { rotationKeys? := none }).trace ∧
      RemoteCall.submitPlcOperation ∈ (signPlcOperation stAgents { rotationKeys? := none }).trace) ∧
    ∀ (st : MigratorState) (env : SignEnv),
      (signPlcOperation st env).err? = none ∨
      (signPlcOperation st env).err? = some SignErr.nullAgent := by
  refine ⟨by decide, ?_⟩
  intro st env
  cases hn : st.newAgent <;> cases ho : st.oldAgent <;>
    simp [signPlcOperation, hn, ho, jsArrayTruthy]

/-- Claim C6: in every execution of `signPlcOperation`, whenever the trace
contains `activateAccount` at position `i` and `deactivateAccount` at
position `j`, then `i < j`: the destination is activated strictly before the
source is deactivated (lines 271-272). -/
theorem handover_activation_order (st : MigratorState) (env : SignEnv) (i j : Nat)
    (hi : (signPlcOperation st env).trace[i]? = some RemoteCall.activateAccount)
    (hj : (signPlcOperation st env).trace[j]? = some RemoteCall.deactivateAccount) :
    i < j := by
  cases hn : st.newAgent with
  | none => simp [signPlcOperation, hn] at hi
  | some u =>
    cases ho : st.oldAgent with
    | none =>
      simp only [signPlcOperation, hn, ho, jsArrayTruthy] at hi
      rcases i with _ | i <;> simp at hi
    | some v =>
      simp only [signPlcOperation, hn, ho, jsArrayTruthy] at hi hj
      have hi3 : i = 3 := by
        rcases i with _ | _ | _ | _ | _ | i <;> simp_all
      have hj4 : j = 4 := by
        rcases j with _ | _ | _ | _ | _ | j <;> simp_all
      omega

/-- Claim C6 witness: a concrete successful handover, with `activateAccount`
at position 3 and `deactivateAccount` at position 4. -/
theorem handover_activation_order_witness :
    (signPlcOperation stAgents signEnvOk).trace[3]? = some RemoteCall.activateAccount ∧
    (signPlcOperation stAgents signEnvOk).trace[4]? = some RemoteCall.deactivateAccount ∧
    (3 : Nat) < 4 :=
  ⟨by decide, by decide,
    handover_activation_order stAgents signEnvOk 3 4 (by decide) (by decide)⟩

/-- Claim C10: calling `signPlcOperation` on a `Migrator` whose sessions were
never stored by `migrate` (both agent fields still `null`, as the constructor
leaves them) always fails with the null-dereference error before issuing any
remote call. -/
theorem signPlc_requires_sessions (st : MigratorState) (env : SignEnv)
    (_h1 : st.oldAgent = none) (h2 : st.newAgent = none) :
    (signPlcOperation st env).err? = some SignErr.nullAgent ∧
    (signPlcOperation st env).trace = [] ∧
    mkMigrator.oldAgent = none ∧ mkMigrator.newAgent = none := by
  simp [signPlcOperation, h2, mkMigrator]

/-- Claim C10 witness: a fresh `Migrator` instance fails `signPlcOperation`. -/
theorem signPlc_requires_sessions_witness :
    mkMigrator.oldAgent = none ∧ mkMigrator.newAgent = none ∧
    ((signPlcOperation mkMigrator signEnvOk).err? = some SignErr.nullAgent ∧
      (signPlcOperation mkMigrator signEnvOk).trace = [] ∧
      mkMigrator.oldAgent = none ∧ mkMigrator.newAgent = none) :=
  ⟨by decide, by decide,
    signPlc_requires_sessions mkMigrator signEnvOk (by decide) (by decide)⟩

/-- Claim C7: the deactivation workflow's prior-endpoint computation.
1. For a change log `[A, B, C]` where `C` matches the current endpoint
   (case-insensitively) and `A`, `B` do not, the computed prior endpoint
   is `B`.
2. If the first entry of the change log already equals the current endpoint,
   the workflow fails with the no-prior-endpoint error and never issues
   `deactivateAccount`.
3. If the computed prior endpoint equals the current one (and is nonempty),
   the post-login guard at lines 329-331 fails with a distinct error and the
   trace stops at the login: no `deactivateAccount` is issued. -/
theorem deactivation_prior_endpoint :
    (∀ (a b c cur : String),
        strToLower c = strToLower cur →
        strToLower a ≠ strToLower cur →
        strToLower b ≠ strToLower cur →
        scanPrior cur [{ endpoint? := some a }, { endpoint? := some b },
          { endpoint? := some c }] "" = b) ∧
    (∀ (st : MigratorState) (env : DeacEnv) (h cur : String) (rest : List PlcLogEntry),
        pdsFromDoc env.didDocServices = some cur →
        env.plcLog = { endpoint? := some cur } :: rest →
        (deactivateOldAccount st env h).err? = some DeacErr.noPriorPds ∧
        RemoteCall.deactivateAccount ∉ (deactivateOldAccount st env h).trace) ∧
    (∀ (pdsBeforeCurrent currentPds : String),
        pdsBeforeCurrent ≠ "" → pdsBeforeCurrent = currentPds →
        deactivateAfterScan pdsBeforeCurrent currentPds =
          (some DeacErr.priorIsCurrent, [RemoteCall.oldLogin]) ∧
        DeacErr.priorIsCurrent ≠ DeacErr.noPriorPds) := by
  refine ⟨?_, ?_, ?_⟩
  · intro a b c cur hc ha hb
    simp [scanPrior, ha, hb, hc]
  · intro st env h cur rest hdoc hlog
    have hscan : scanPrior cur env.plcLog "" = "" := by
      rw [hlog]; simp [scanPrior]
    have hafter : deactivateAfterScan "" cur = (some DeacErr.noPriorPds, []) := by
      simp [deactivateAfterScan]
    refine ⟨?_, ?_⟩
    · simp [deactivateOldAccount, hdoc, hscan, hafter]
    · simp only [deactivateOldAccount, hdoc, hscan, hafter]
      split <;> simp
  · intro pdsBeforeCurrent currentPds hne heq
    subst heq
    simp [deactivateAfterScan, hne]

/-- Claim C7 witness: concrete instances of all three parts. -/
theorem deactivation_prior_endpoint_witness :
    scanPrior "c" [{ endpoint? := some "a" }, { endpoint? := some "b" },
      { endpoint? := some "c" }] "" = "b" ∧
    ((deactivateOldAccount mkMigrator c7env "old.example.com").err? = some DeacErr.noPriorPds ∧
      RemoteCall.deactivateAccount ∉ (deactivateOldAccount mkMigrator c7env "old.example.com").trace) ∧
    (deactivateAfterScan "x" "x" = (some DeacErr.priorIsCurrent, [RemoteCall.oldLogin]) ∧
      DeacErr.priorIsCurrent ≠ DeacErr.noPriorPds) :=
  ⟨deactivation_prior_endpoint.1 "a" "b" "c" "c" (by decide) (by decide) (by decide),
    deactivation_prior_endpoint.2.1 mkMigrator c7env "old.example.com" "p" [] (by decide) (by decide),
    deactivation_prior_endpoint.2.2 "x" "x" (by decide) rfl⟩

/-- The listing is called once per page along a chain. -/
theorem chainCursors_length : ∀ (pages : List Page) (c : Option String),
    (chainCursors c pages).length = pages.length := by
  intro pages
  induction pages with
  | nil => intro c; simp [chainCursors]
  | cons p rest ih => intro c; simp [chainCursors, ih]

/-- Claim C5: along a chain of pages (each page's cursor leading to the next
listing call, the last cursor falsy), the main blob sync terminates, issues
exactly one `listBlobs` call per page with the cursors in chain order, and,
when every transfer succeeds, uploads exactly one blob per listed attachment
(lines 154-187). -/
theorem blob_pagination (envL : Option String → Page) (f : String → Bool)
    (c : Option String) (pages : List Page) (fuel : Nat)
    (hch : Chain envL c pages) (hf : pages.length ≤ fuel) :
    ∃ n tr, blobPhase envL f fuel c = some (n, tr) ∧
      listBlobCursors tr = chainCursors c pages ∧
      (listBlobCursors tr).length = pages.length ∧
      ((∀ cid, cid ∈ pagesItems pages → f cid = true) →
        numUploads tr = (pagesItems pages).length) := by
  obtain ⟨n, tr, h1, h2, h3, -⟩ := blobPhase_chain f hch fuel hf
  refine ⟨n, tr, h1, h2, ?_, ?_⟩
  · rw [h2, chainCursors_length]
  · intro hall
    have hfe : (pagesItems pages).filter f = pagesItems pages :=
      List.filter_eq_self.mpr (fun a ha => hall a ha)
    rw [h3, hfe]

/-- Claim C5 witness: a three-page chain (cursors `none`, `"c1"`, `"c2"`) with
five attachments, all transfers succeeding. -/
theorem blob_pagination_witness :
    Chain c5env none c5pages ∧ c5pages.length ≤ 3 ∧
    (∃ n tr, blobPhase c5env allOk 3 none = some (n, tr) ∧
      listBlobCursors tr = chainCursors none c5pages ∧
      (listBlobCursors tr).length = c5pages.length ∧
      ((∀ cid, cid ∈ pagesItems c5pages → allOk cid = true) →
        numUploads tr = (pagesItems c5pages).length)) := by
  have hch : Chain c5env none c5pages :=
    Chain.step _ _ _ (by decide) (by decide)
      (Chain.step _ _ _ (by decide) (by decide)
        (Chain.last _ _ (by decide) (by decide)))
  exact ⟨hch, by decide, blob_pagination c5env allOk none c5pages 3 hch (by decide)⟩

/-- Claim C4 counterexample: the Missing-Attachment List does not always hold
a still-failing attachment exactly once.  When the destination's
`listMissingBlobs` names the same cid in two entries (one per record
referencing the blob, as the endpoint's per-record listing may), the
reconciliation pass of lines 205-224 pushes the cid once per entry: a
completed run ends with the cid twice in `this.missingBlobs`. -/
theorem missing_list_duplicate_counterexample :
    missingPhase c4dupEnv failAll 1 none [] =
      some (["x", "x"], [RemoteCall.listMissingBlobs none, RemoteCall.getBlob "x",
        RemoteCall.getBlob "x"]) ∧
    (["x", "x"] : List String).count "x" = 2 := by decide

/-- Claim C4 (amended): per-attachment failure isolation.
1. Every attachment of a page is attempted (`getBlob` issued) no matter which
   other attachments fail.
2. The blob-sync run completes (returns) for every transfer oracle along a
   page chain.
3. An attachment that still fails in the reconciliation pass is appended to
   the Missing-Attachment List once per entry naming it in the destination's
   missing listing; in particular exactly once when the listing names it in a
   single entry and it was not already on the list. -/
theorem blob_failure_isolation :
    (∀ (f : String → Bool) (items : List String) (cid : String),
        cid ∈ items → RemoteCall.getBlob cid ∈ (syncItems f items).2) ∧
    (∀ (envL : Option String → Page) (f : String → Bool) (c : Option String)
        (pages : List Page) (fuel : Nat),
        Chain envL c pages → pages.length ≤ fuel →
        ∃ r, blobPhase envL f fuel c = some r) ∧
    (∀ (envL : Option String → Page) (f : String → Bool) (c : Option String)
        (pages : List Page) (fuel : Nat) (acc : List String) (cid : String),
        Chain envL c pages → pages.length ≤ fuel →
        f cid = false → (pagesItems pages).count cid = 1 → acc.count cid = 0 →
        ∃ mb tr, missingPhase envL f fuel c acc = some (mb, tr) ∧ mb.count cid = 1) := by
  refine ⟨syncItems_getBlob_mem, ?_, ?_⟩
  · intro envL f c pages fuel hch hf
    obtain ⟨n, tr, h1, -⟩ := blobPhase_chain f hch fuel hf
    exact ⟨(n, tr), h1⟩
  · intro envL f c pages fuel acc cid hch hf hfcid hcount hacc
    obtain ⟨tr, h1⟩ := missingPhase_chain f hch fuel acc hf
    refine ⟨_, tr, h1, ?_⟩
    rw [List.count_append, hacc]
    have hp : (!(f cid)) = true := by simp [hfcid]
    rw [List.count_filter (p := fun c2 => !(f c2)) (a := cid) hp, hcount]

/-- Claim C4 witness: concrete instances of all three parts: a failing
attachment does not stop the page, the run completes, and a single-entry
still-failing attachment lands on the list exactly once. -/
theorem blob_failure_isolation_witness :
    RemoteCall.getBlob "x38" ∈
      (syncItems (fun c => !(c == "x37")) ["x36", "x37", "x38"]).2 ∧
    Chain c4env none [{ items := ["x37"], cursor := none }] ∧
    (∃ r, blobPhase c4env failAll 1 none = some r) ∧
    (∃ mb tr, missingPhase c4env failAll 1 none [] = some (mb, tr) ∧
      mb.count "x37" = 1) := by
  have hch : Chain c4env none [{ items := ["x37"], cursor := none }] :=
    Chain.last _ _ (by decide) (by decide)
  refine ⟨blob_failure_isolation.1 _ _ _ (by decide), hch, ?_, ?_⟩
  · exact blob_failure_isolation.2.1 c4env failAll none _ 1 hch (by decide)
  · exact blob_failure_isolation.2.2 c4env failAll none _ 1 [] "x37" hch (by decide)
      (by decide) (by decide) (by decide)

/-- The count `numListMissingCalls` distributes over trace concatenation. -/
theorem numListMissing_append (t1 t2 : List RemoteCall) :
    numListMissingCalls (t1 ++ t2) = numListMissingCalls t1 + numListMissingCalls t2 := by
  simp [numListMissingCalls, List.countP_append]

theorem migrateFrom2_numListMissing (st : MigratorState) (env : MigrateEnv)
    (t0 : List RemoteCall) (fuel : Nat) (r : MigResult)
    (hs : env.status2.expectedBlobs = env.status2.importedBlobs)
    (ht0 : numListMissingCalls t0 = 0)
    (hm : migrateFrom2 st env t0 fuel = some r) :
    numListMissingCalls r.trace = 0 := by
  simp only [numListMissingCalls] at ht0 ⊢
  simp only [migrateFrom2] at hm
  cases hblob : st.migrateBlobs with
  | false =>
    by_cases hmiss : st.migrateMissingBlobs = true <;>
      · simp [hblob, hmiss, hs] at hm
        subst hm
        cases hrep : st.migrateRepo <;> cases hpref : st.migratePrefs <;>
          cases hplc : st.migratePlcRecord <;>
          simp [hrep, hpref, hplc, List.countP_append, List.countP_cons, isListMissingCall, ht0]
  | true =>
    cases hbp : blobPhase env.listBlobsPage env.blobFetchOk fuel none with
    | none => simp [hblob, hbp] at hm
    | some p =>
      have htb : numListMissingCalls p.2 = 0 :=
        blobPhase_numListMissing fuel env.listBlobsPage env.blobFetchOk none p.1 p.2 hbp
      simp only [numListMissingCalls] at htb
      by_cases hmiss : st.migrateMissingBlobs = true <;>
        · simp [hblob, hbp, hmiss, hs] at hm
          subst hm
          cases hrep : st.migrateRepo <;> cases hpref : st.migratePrefs <;>
            cases hplc : st.migratePlcRecord <;>
            simp [hrep, hpref, hplc, List.countP_append, List.countP_cons, isListMissingCall,
              ht0, htb]

theorem migrateFrom_numListMissing (st : MigratorState) (env : MigrateEnv)
    (t0 : List RemoteCall) (fuel : Nat) (r : MigResult)
    (hs : env.status2.expectedBlobs = env.status2.importedBlobs)
    (ht0 : numListMissingCalls t0 = 0)
    (hm : migrateFrom st env t0 fuel = some r) :
    numListMissingCalls r.trace = 0 := by
  simp only [migrateFrom] at hm
  by_cases hc : st.createNewAccount = true
  · rw [if_pos hc] at hm
    by_cases hmis : env.createdDid ≠ env.resolvedDid
    · rw [if_pos hmis] at hm
      simp at hm
      subst hm
      simp only [numListMissingCalls] at ht0 ⊢
      simp [List.countP_append, List.countP_cons, isListMissingCall, ht0]
    · rw [if_neg hmis] at hm
      refine migrateFrom2_numListMissing st env _ fuel r hs ?_ hm
      simp only [numListMissing_append, ht0]
      decide
  · rw [if_neg hc] at hm
    refine migrateFrom2_numListMissing st env _ fuel r hs ?_ hm
    simp only [numListMissing_append, ht0]
    decide

/-- Claim C8: whenever `migrate` returns and the destination's second account
status (the reconciliation re-read at line 190) reports the expected and
imported attachment counts equal, the whole run issues zero
`listMissingBlobs` calls. -/
theorem reconciliation_skipped_when_counts_match (st : MigratorState) (env : MigrateEnv)
    (h : String) (fuel : Nat) (r : MigResult)
    (hm : migrate st env h fuel = some r)
    (hs : env.status2.expectedBlobs = env.status2.importedBlobs) :
    numListMissingCalls r.trace = 0 := by
  simp only [migrate] at hm
  by_cases hend : strEndsWith (normalizeHandle h) ".bsky.social" = true
  · rw [if_pos hend] at hm
    refine migrateFrom_numListMissing st env _ fuel r hs ?_ hm
    simp [numListMissingCalls, isListMissingCall]
  · rw [if_neg hend] at hm
    cases hdoc : pdsFromDoc env.didDocServices with
    | none =>
      rw [hdoc] at hm
      simp at hm
      subst hm
      simp [numListMissingCalls, isListMissingCall]
    | some p =>
      rw [hdoc] at hm
      refine migrateFrom_numListMissing st env _ fuel r hs ?_ hm
      simp [numListMissingCalls, isListMissingCall]

/-- Claim C8 witness: a full run against equal counts issues no
`listMissingBlobs` call. -/
theorem reconciliation_skipped_witness :
    migrate mkMigrator envBasic "alice.bsky.social" 1 = some c9res ∧
    envBasic.status2.expectedBlobs = envBasic.status2.importedBlobs ∧
    numListMissingCalls c9res.trace = 0 :=
  ⟨by decide, by decide,
    reconciliation_skipped_when_counts_match mkMigrator envBasic "alice.bsky.social" 1 c9res
      (by decide) (by decide)⟩

/-- Claim C2 counterexample: a handover-only rerun (all phase flags false
except `migratePlcRecord`) does NOT perform authentication only between
identity resolution and the approval-challenge request: the unconditional
`describeServer` probe (line 105) and the unconditional `checkAccountStatus`
read (line 152) are also issued.  `checkAccountStatus` is an account-status
call, which the claim says must not appear. -/
theorem migrate_handover_only_counterexample :
    migrate stHandoverOnly envBasic "alice.bsky.social" 1 = some c2res ∧
    c2res.err? = none ∧
    c2res.trace = [RemoteCall.resolveHandlePublic "alice.bsky.social", RemoteCall.oldLogin,
      RemoteCall.describeServer, RemoteCall.newLogin, RemoteCall.checkAccountStatus,
      RemoteCall.requestPlcOperationSignature] ∧
    RemoteCall.checkAccountStatus ∈ c2res.trace := by decide

/-- Claim C2 (amended): in a handover-only rerun that returns normally, the
trace is exactly the resolution calls followed by the source login, the
destination `describeServer` probe, the destination login, one
`checkAccountStatus` read, and the approval-challenge request — in
particular no repository, blob, missing-blob, or preferences call is
issued. -/
theorem migrate_handover_only_trace (st : MigratorState) (env : MigrateEnv)
    (h : String) (fuel : Nat) (r : MigResult)
    (h1 : st.createNewAccount = false) (h2 : st.migrateRepo = false)
    (h3 : st.migrateBlobs = false) (h4 : st.migrateMissingBlobs = false)
    (h5 : st.migratePrefs = false) (h6 : st.migratePlcRecord = true)
    (hm : migrate st env h fuel = some r) (he : r.err? = none) :
    r.trace = resolveTrace env h ++
      [RemoteCall.oldLogin, RemoteCall.describeServer, RemoteCall.newLogin,
       RemoteCall.checkAccountStatus, RemoteCall.requestPlcOperationSignature] := by
  simp only [migrate] at hm
  by_cases hend : strEndsWith (normalizeHandle h) ".bsky.social" = true
  · rw [if_pos hend] at hm
    simp [migrateFrom, migrateFrom2, h1, h2, h3, h4, h5, h6] at hm
    subst hm
    simp [resolveTrace, if_pos hend]
  · rw [if_neg hend] at hm
    cases hdoc : pdsFromDoc env.didDocServices with
    | none =>
      rw [hdoc] at hm
      simp at hm
      subst hm
      simp at he
    | some p =>
      rw [hdoc] at hm
      simp [migrateFrom, migrateFrom2, h1, h2, h3, h4, h5, h6] at hm
      subst hm
      simp [resolveTrace, if_neg hend]

/-- Claim C2 witness: the concrete handover-only rerun of the counterexample
environment satisfies the amended trace description. -/
theorem migrate_handover_only_trace_witness :
    stHandoverOnly.createNewAccount = false ∧ stHandoverOnly.migratePlcRecord = true ∧
    migrate stHandoverOnly envBasic "alice.bsky.social" 1 = some c2res ∧
    c2res.err? = none ∧
    c2res.trace = resolveTrace envBasic "alice.bsky.social" ++
      [RemoteCall.oldLogin, RemoteCall.describeServer, RemoteCall.newLogin,
       RemoteCall.checkAccountStatus, RemoteCall.requestPlcOperationSignature] :=
  ⟨by decide, by decide, by decide, by decide,
    migrate_handover_only_trace stHandoverOnly envBasic "alice.bsky.social" 1 c2res
      (by decide) (by decide) (by decide) (by decide) (by decide) (by decide)
      (by decide) (by decide)⟩

/-- Claim C3: with the account-creation flag set, if the DID returned by the
destination's `createAccount` differs from the resolved DID, `migrate` throws
the mismatch error immediately (lines 133-135): no destination login, no
repository export or import, and no later phase runs, and the instance state
is untouched. -/
theorem create_mismatch_aborts (st : MigratorState) (env : MigrateEnv) (h : String)
    (fuel : Nat) (r : MigResult)
    (hm : migrate st env h fuel = some r)
    (hflag : st.createNewAccount = true)
    (hmis : env.createdDid ≠ env.resolvedDid)
    (hreached : RemoteCall.createAccount ∈ r.trace) :
    r.err? = some MigErr.didMismatch ∧
    RemoteCall.importRepo ∉ r.trace ∧
    RemoteCall.getRepo ∉ r.trace ∧
    RemoteCall.newLogin ∉ r.trace ∧
    r.final = st := by
  simp only [migrate] at hm
  by_cases hend : strEndsWith (normalizeHandle h) ".bsky.social" = true
  · rw [if_pos hend] at hm
    simp [migrateFrom, hflag, hmis] at hm
    subst hm
    simp
  · rw [if_neg hend] at hm
    cases hdoc : pdsFromDoc env.didDocServices with
    | none =>
      rw [hdoc] at hm
      simp at hm
      subst hm
      simp at hreached
    | some p =>
      rw [hdoc] at hm
      simp [migrateFrom, hflag, hmis] at hm
      subst hm
      simp

/-- Claim C3 witness: a concrete first run whose `createAccount` answers with
a different DID. -/
theorem create_mismatch_aborts_witness :
    migrate mkMigrator envMismatch "alice.bsky.social" 1 = some c3res ∧
    mkMigrator.createNewAccount = true ∧
    envMismatch.createdDid ≠ envMismatch.resolvedDid ∧
    RemoteCall.createAccount ∈ c3res.trace ∧
    (c3res.err? = some MigErr.didMismatch ∧
      RemoteCall.importRepo ∉ c3res.trace ∧
      RemoteCall.getRepo ∉ c3res.trace ∧
      RemoteCall.newLogin ∉ c3res.trace ∧
      c3res.final = mkMigrator) :=
  ⟨by decide, by decide, by decide, by decide,
    create_mismatch_aborts mkMigrator envMismatch "alice.bsky.social" 1 c3res
      (by decide) (by decide) (by decide) (by decide)⟩

theorem migrateFrom2_missing_extends (st : MigratorState) (env : MigrateEnv)
    (t0 : List RemoteCall) (fuel : Nat) (r : MigResult)
    (hm : migrateFrom2 st env t0 fuel = some r) :
    ∃ l, r.final.missingBlobs = st.missingBlobs ++ l := by
  simp only [migrateFrom2] at hm
  cases hblob : st.migrateBlobs with
  | false =>
    by_cases hmiss : st.migrateMissingBlobs = true
    · by_cases hne : env.status2.expectedBlobs ≠ env.status2.importedBlobs
      · cases hmp : missingPhase env.listMissingPage env.missingFetchOk fuel none st.missingBlobs with
        | none => simp [hblob, hmiss, hne, hmp] at hm
        | some q =>
          simp [hblob, hmiss, hne, hmp] at hm
          subst hm
          obtain ⟨l, hl⟩ := missingPhase_extends fuel env.listMissingPage env.missingFetchOk
            none st.missingBlobs q.1 q.2 hmp
          exact ⟨l, by simp [hl]⟩
      · simp [hblob, hmiss, hne] at hm
        subst hm
        exact ⟨[], by simp⟩
    · simp [hblob, hmiss] at hm
      subst hm
      exact ⟨[], by simp⟩
  | true =>
    cases hbp : blobPhase env.listBlobsPage env.blobFetchOk fuel none with
    | none => simp [hblob, hbp] at hm
    | some p =>
      by_cases hmiss : st.migrateMissingBlobs = true
      · by_cases hne : env.status2.expectedBlobs ≠ env.status2.importedBlobs
        · cases hmp : missingPhase env.listMissingPage env.missingFetchOk fuel none st.missingBlobs with
          | none => simp [hblob, hbp, hmiss, hne, hmp] at hm
          | some q =>
            simp [hblob, hbp, hmiss, hne, hmp] at hm
            subst hm
            obtain ⟨l, hl⟩ := missingPhase_extends fuel env.listMissingPage env.missingFetchOk
              none st.missingBlobs q.1 q.2 hmp
            exact ⟨l, by simp [hl]⟩
        · simp [hblob, hbp, hmiss, hne] at hm
          subst hm
          exact ⟨[], by simp⟩
      · simp [hblob, hbp, hmiss] at hm
        subst hm
        exact ⟨[], by simp⟩

theorem migrateFrom_missing_extends (st : MigratorState) (env : MigrateEnv)
    (t0 : List RemoteCall) (fuel : Nat) (r : MigResult)
    (hm : migrateFrom st env t0 fuel = some r) :
    ∃ l, r.final.missingBlobs = st.missingBlobs ++ l := by
  simp only [migrateFrom] at hm
  by_cases hc : st.createNewAccount = true
  · rw [if_pos hc] at hm
    by_cases hmis : env.createdDid ≠ env.resolvedDid
    · rw [if_pos hmis] at hm
      simp at hm
      subst hm
      exact ⟨[], by simp⟩
    · rw [if_neg hmis] at hm
      exact migrateFrom2_missing_extends st env _ fuel r hm
  · rw [if_neg hc] at hm
    exact migrateFrom2_missing_extends st env _ fuel r hm

/-- Claim C9: the Missing-Attachment List `this.missingBlobs` is append-only
across every operation of a `Migrator` instance: `migrate` only ever appends
to it (line 222 is its sole write), and `signPlcOperation` and
`deactivateOldAccount` leave the instance state untouched, so entries
accumulated in one run persist into any later run on the same instance. -/
theorem missing_list_append_only :
    (∀ (st : MigratorState) (env : MigrateEnv) (h : String) (fuel : Nat) (r : MigResult),
        migrate st env h fuel = some r →
        ∃ l, r.final.missingBlobs = st.missingBlobs ++ l) ∧
    (∀ (st : MigratorState) (env : SignEnv),
        (signPlcOperation st env).final.missingBlobs = st.missingBlobs) ∧
    (∀ (st : MigratorState) (env : DeacEnv) (h : String),
        (deactivateOldAccount st env h).final.missingBlobs = st.missingBlobs) := by
  refine ⟨?_, ?_, ?_⟩
  · intro st env h fuel r hm
    simp only [migrate] at hm
    by_cases hend : strEndsWith (normalizeHandle h) ".bsky.social" = true
    · rw [if_pos hend] at hm
      exact migrateFrom_missing_extends st env _ fuel r hm
    · rw [if_neg hend] at hm
      cases hdoc : pdsFromDoc env.didDocServices with
      | none =>
        rw [hdoc] at hm
        simp at hm
        subst hm
        exact ⟨[], by simp⟩
      | some p =>
        rw [hdoc] at hm
        exact migrateFrom_missing_extends st env _ fuel r hm
  · intro st env
    cases hn : st.newAgent <;> cases ho : st.oldAgent <;>
      simp [signPlcOperation, hn, ho, jsArrayTruthy]
  · intro st env h
    cases hdoc : pdsFromDoc env.didDocServices <;>
      simp [deactivateOldAccount, hdoc]

/-- Claim C9 witness: a full run on a fresh instance leaves the accumulated
list an extension of the initial one. -/
theorem missing_list_append_only_witness :
    migrate mkMigrator envBasic "alice.bsky.social" 1 = some c9res ∧
    (∃ l, c9res.final.missingBlobs = mkMigrator.missingBlobs ++ l) :=
  ⟨by decide,
    missing_list_append_only.1 mkMigrator envBasic "alice.bsky.social" 1 c9res (by decide)⟩
